import Mathlib

/-!
Verification of the hasura-metric-adapter entry module
(src/metrics/src/main.rs) against its specification.

Strings are modelled as lists of characters. A Rust value that panics is
modelled by `Option.none` at the point where the panic happens; a normal
return of `r` is `Option.some r`. Fallible computations returning
`Result` are modelled with `Except`.
-/

namespace HasuraMetrics

/-- Model of a Rust string: a list of characters. -/
abbrev Str := List Char

/-- Splitting a string on a single separator character. This models
`Regex::new(r"=").split(...)` and `Regex::new(r",").split(...)` from
main.rs: a regex consisting of one literal character splits the input at
every occurrence of that character, producing `count + 1` fields, with
empty fields kept. -/
def splitOnChar (c : Char) : List Char → List (List Char)
  | [] => [[]]
  | x :: xs =>
    if x = c then [] :: splitOnChar c xs
    else
      match splitOnChar c xs with
      | [] => [[x]]
      | h :: t => (x :: h) :: t

/-- `key_value_parser` (main.rs lines 51-57): split the token on `=`; if the
split has exactly two fields return the pair, otherwise return an error. -/
def keyValueParser (input : Str) : Except Str (Str × Str) :=
  let pair := splitOnChar '=' input
  match pair with
  | [k, v] => Except.ok (k, v)
  | _ => Except.error (("invalid KEY=value: no `=` found in `").toList ++ input ++ ("`").toList)

/-- Insertion into the model of a Rust `HashMap`: an association list in
which inserting an existing key replaces its value in place. -/
def mapInsert (m : List (Str × Str)) (k v : Str) : List (Str × Str) :=
  match m with
  | [] => [(k, v)]
  | (k0, v0) :: rest => if k0 = k then (k0, v) :: rest else (k0, v0) :: mapInsert rest k v

/-- Collecting an iterator of key-value pairs into a `HashMap`
(`.collect()` in parse_ref): later pairs overwrite earlier ones. -/
def collectMap (ps : List (Str × Str)) : List (Str × Str) :=
  ps.foldl (fun m kv => mapInsert m kv.1 kv.2) []

/-- Lookup in the `HashMap` model. -/
def mapLookup (m : List (Str × Str)) (k : Str) : Option Str :=
  match m with
  | [] => none
  | (k0, v0) :: rest => if k0 = k then some v0 else mapLookup rest k

/-- The `.map(|x| key_value_parser(x).unwrap())` stage of parse_ref,
evaluated during `.collect()`: if any token fails to parse, the `unwrap`
panics (modelled as `none`); otherwise all pairs are produced. -/
def mapUnwrap : List Str → Option (List (Str × Str))
  | [] => some []
  | t :: ts =>
    match keyValueParser t with
    | Except.error _ => none
    | Except.ok kv => (mapUnwrap ts).map (kv :: ·)

/-- `MapValueParser::parse_ref` (main.rs lines 72-88). The argument is the
`OsStr` command-line value; `none` models a non-UTF-8 argument, on which
`value.to_str().unwrap()` panics. The body splits on `,`, parses each
token with `key_value_parser(x).unwrap()` (panicking on any parse error),
collects the pairs into a map, and returns `Ok(map)`. The only normal
return is the final `Ok`. -/
def parseRef (value : Option Str) : Option (Except Str (List (Str × Str))) :=
  match value with
  | none => none
  | some s =>
    match mapUnwrap (splitOnChar ',' s) with
    | none => none
    | some pairs => some (Except.ok (collectMap pairs))

instance {ε α : Type} [DecidableEq ε] [DecidableEq α] : DecidableEq (Except ε α) := fun x y =>
  match x, y with
  | Except.ok a, Except.ok b =>
    if h : a = b then isTrue (by rw [h])
    else isFalse (by intro hc; cases hc; exact h rfl)
  | Except.error a, Except.error b =>
    if h : a = b then isTrue (by rw [h])
    else isFalse (by intro hc; cases hc; exact h rfl)
  | Except.ok _, Except.error _ => isFalse (by intro hc; cases hc)
  | Except.error _, Except.ok _ => isFalse (by intro hc; cases hc)

/-- The `Collectors` enum (main.rs lines 43-49), deriving `Ord` in Rust
with the declaration order. -/
inductive Collectors
  | CronTriggers
  | EventTriggers
  | ScheduledEvents
  | MetadataInconsistency
deriving DecidableEq

/-- Rank of a variant in the declaration order, giving the derived `Ord`. -/
def Collectors.toNat : Collectors → Nat
  | Collectors.CronTriggers => 0
  | Collectors.EventTriggers => 1
  | Collectors.ScheduledEvents => 2
  | Collectors.MetadataInconsistency => 3

/-- The derived `Ord` relation on `Collectors` (declaration order). -/
def Collectors.le (a b : Collectors) : Prop := a.toNat ≤ b.toNat

instance : DecidableRel Collectors.le :=
  fun a b => inferInstanceAs (Decidable (a.toNat ≤ b.toNat))

instance : IsTotal Collectors Collectors.le :=
  ⟨fun a b => Nat.le_total a.toNat b.toNat⟩

instance : IsTrans Collectors Collectors.le :=
  ⟨fun _ _ _ h1 h2 => Nat.le_trans h1 h2⟩

instance : IsAntisymm Collectors Collectors.le :=
  ⟨fun a b h1 h2 => by
    cases a <;> cases b <;>
      first
      | rfl
      | exact absurd h1 (by decide)
      | exact absurd h2 (by decide)⟩

/-- The slice of admin-dependent collectors force-disabled when no admin
secret is configured (main.rs lines 143-148), in its source order. -/
def adminCollectors : List Collectors :=
  [Collectors.CronTriggers, Collectors.EventTriggers,
   Collectors.ScheduledEvents, Collectors.MetadataInconsistency]

/-- Model of `Vec::dedup` (main.rs line 156): remove consecutive repeated
elements, keeping the first of each run. -/
def rustDedup {α : Type} [DecidableEq α] : List α → List α
  | [] => []
  | [a] => [a]
  | a :: b :: rest =>
    if a = b then rustDedup (b :: rest) else a :: rustDedup (b :: rest)

/-- The conditional `extend_from_slice` (main.rs lines 142-153): when no
admin secret is present, append the four admin-dependent collectors to the
explicitly excluded ones. -/
def extendDisabled (hasuraAdmin : Option Str) (explicit : List Collectors) : List Collectors :=
  match hasuraAdmin with
  | none => explicit ++ adminCollectors
  | some _ => explicit

/-- The full disabled-collector resolution of main (lines 142-156):
conditional extension, then `sort` (a stable sort by the derived `Ord`,
modelled by insertion sort), then `dedup`. -/
def resolveDisabledCollectors (hasuraAdmin : Option Str) (explicit : List Collectors) :
    List Collectors :=
  rustDedup (List.insertionSort Collectors.le (extendDisabled hasuraAdmin explicit))

/-- The two states of the cancellation signal carried by the
`tokio::sync::watch` channel created in `signal_handler` (main.rs lines
131-135): `running` before any send, `terminating` once `tx.send(())` has
notified the receivers. -/
inductive SignalState
  | running
  | terminating
deriving DecidableEq

/-- The operations the program performs on the signal: `trigger` is the
single `tx.send(())` in `signal_handler_ctrl_c` (line 127); `observe` is
what the consumers do through their read-only `watch::Receiver` clones. -/
inductive SignalOp
  | trigger
  | observe

/-- Effect of one signal operation on the signal state. A trigger makes
the state `terminating` regardless of the prior state (sending on a watch
channel that already signalled is a no-op on the observed state); an
observation through a `Receiver` leaves the state unchanged. -/
def applySignalOp (s : SignalState) : SignalOp → SignalState
  | SignalOp.trigger => SignalState.terminating
  | SignalOp.observe => s

/-- The initial signal state: the channel is created before any send. -/
def signalInit : SignalState := SignalState.running

/-- The observable state of the main orchestration: the signal state and
the outcome main is about to return (none while still joined on the three
tasks). -/
structure MainRun where
  sig : SignalState
  outcome : Option (Except Str Unit)

/-- The `Err` branch of the match on the `try_join!` result (main.rs lines
176-179): log the error and return `Err(e)`. No operation on the
terminate channel occurs on this path. -/
def mainOnFatal (s : MainRun) (e : Str) : MainRun :=
  { s with outcome := some (Except.error e) }

/-- `webserver` (main.rs lines 35-41): `.bind(&cfg.listen_addr)?`
propagates a bind error; on success the server runs and its run result is
returned. -/
def webserverRun (bindResult runResult : Except Str Unit) : Except Str Unit := do
  bindResult
  runResult

/-- `tokio::try_join!` over the three tasks (main.rs lines 166-170): the
joined result is `Ok` exactly when all three tasks return `Ok`, and an
error otherwise. Which error is reported first is timing-dependent; the
model picks the leftmost, which suffices for the error-or-not question. -/
def tryJoin3 (a b c : Except Str Unit) : Except Str Unit := do
  a
  b
  c

/-- The match on the joined result (main.rs lines 172-182): `Ok` returns
`Ok(())` from main, `Err(e)` returns `Err(e)`. -/
def mainResult (web logr coll : Except Str Unit) : Except Str Unit :=
  match tryJoin3 web logr coll with
  | Except.ok _ => Except.ok ()
  | Except.error e => Except.error e

/-- Exit code of the process as determined by the result main returns:
`Ok` exits 0, `Err` exits nonzero (1). -/
def exitCode : Except Str Unit → Nat
  | Except.ok _ => 0
  | Except.error _ => 1

/-- Modelled from the spec: `Telemetry` and `Telemetry::new`
(src/metrics/src/telemetry.rs is not under src). Per the spec, the
registry stores the common-label map and the histogram bucket bounds fixed
at construction; construction always succeeds. -/
structure Telemetry where
  common_labels : List (Str × Str)
  histogram_buckets : List Float

/-- Modelled from the spec: the constructor stores its two arguments. -/
def Telemetry.new (labels : List (Str × Str)) (buckets : List Float) : Telemetry :=
  ⟨labels, buckets⟩

/-- Modelled from the spec: common labels are merged into every metric
label set at creation time. -/
def Telemetry.metricLabels (t : Telemetry) (extra : List (Str × Str)) : List (Str × Str) :=
  collectMap (t.common_labels ++ extra)

/-- Construction of the metric object at main.rs line 164:
`Telemetry::new(config.common_labels.clone().unwrap_or_default(),
config.histogram_buckets.clone())`. `unwrap_or_default` on the optional
map yields the empty map when the option is `none`. -/
def mkMetricObj (commonLabels : Option (List (Str × Str))) (buckets : List Float) : Telemetry :=
  Telemetry.new (commonLabels.getD []) buckets

/-! ## Helper lemmas -/

theorem splitOnChar_ne_nil (c : Char) : ∀ l : List Char, splitOnChar c l ≠ []
  | [] => by simp [splitOnChar]
  | x :: xs => by
    rcases hs : splitOnChar c xs with _ | ⟨hd, tl⟩
    · exact absurd hs (splitOnChar_ne_nil c xs)
    · by_cases h : x = c <;> simp [splitOnChar, h, hs]

theorem length_splitOnChar (c : Char) :
    ∀ l : List Char, (splitOnChar c l).length = l.count c + 1
  | [] => by simp [splitOnChar]
  | x :: xs => by
    rcases hs : splitOnChar c xs with _ | ⟨hd, tl⟩
    · exact absurd hs (splitOnChar_ne_nil c xs)
    · have ih := length_splitOnChar c xs
      rw [hs] at ih
      by_cases h : x = c <;>
        simp [splitOnChar, h, hs, List.count_cons] at ih ⊢ <;> omega

theorem keyValueParser_isOk_iff_length (t : Str) :
    (keyValueParser t).isOk = true ↔ (splitOnChar '=' t).length = 2 := by
  unfold keyValueParser
  rcases hs : splitOnChar '=' t with _ | ⟨a, _ | ⟨b, _ | ⟨c, rest⟩⟩⟩ <;>
    simp [hs, Except.isOk, Except.toBool]

theorem keyValueParser_isOk_iff (t : Str) :
    (keyValueParser t).isOk = true ↔ t.count '=' = 1 := by
  rw [keyValueParser_isOk_iff_length]
  have h := length_splitOnChar '=' t
  omega

theorem rustDedup_sublist {α : Type} [DecidableEq α] :
    ∀ l : List α, List.Sublist (rustDedup l) l
  | [] => by simp [rustDedup]
  | [a] => by simp [rustDedup]
  | a :: b :: rest => by
    by_cases h : a = b
    · rw [show rustDedup (a :: b :: rest) = rustDedup (b :: rest) from by
        simp [rustDedup, h]]
      exact (rustDedup_sublist (b :: rest)).cons a
    · rw [show rustDedup (a :: b :: rest) = a :: rustDedup (b :: rest) from by
        simp [rustDedup, h]]
      exact (rustDedup_sublist (b :: rest)).cons₂ a

theorem mem_rustDedup {α : Type} [DecidableEq α] :
    ∀ (l : List α) (x : α), x ∈ rustDedup l ↔ x ∈ l
  | [], x => by simp [rustDedup]
  | [a], x => by simp [rustDedup]
  | a :: b :: rest, x => by
    by_cases h : a = b
    · subst h
      rw [show rustDedup (a :: a :: rest) = rustDedup (a :: rest) from by
        simp [rustDedup]]
      rw [mem_rustDedup (a :: rest) x]
      simp [List.mem_cons]
    · rw [show rustDedup (a :: b :: rest) = a :: rustDedup (b :: rest) from by
        simp [rustDedup, h]]
      simp [List.mem_cons, mem_rustDedup (b :: rest) x]

theorem nodup_rustDedup {α : Type} [DecidableEq α] {r : α → α → Prop} [IsAntisymm α r] :
    ∀ l : List α, l.Sorted r → (rustDedup l).Nodup
  | [], _ => by simp [rustDedup]
  | [a], _ => by simp [rustDedup]
  | a :: b :: rest, hs => by
    have hs2 : (b :: rest).Sorted r := hs.of_cons
    by_cases h : a = b
    · rw [show rustDedup (a :: b :: rest) = rustDedup (b :: rest) from by
        simp [rustDedup, h]]
      exact nodup_rustDedup (b :: rest) hs2
    · rw [show rustDedup (a :: b :: rest) = a :: rustDedup (b :: rest) from by
        simp [rustDedup, h]]
      refine List.nodup_cons.mpr ⟨?_, nodup_rustDedup (b :: rest) hs2⟩
      intro hmem
      have hmem2 : a ∈ b :: rest := (mem_rustDedup (b :: rest) a).mp hmem
      have hab : r a b := (List.sorted_cons.mp hs).1 b (by simp)
      rcases List.mem_cons.mp hmem2 with heq | hmem3
      · exact h heq
      · have hba : r b a := (List.sorted_cons.mp hs2).1 a hmem3
        exact h (antisymm hab hba)

theorem sorted_resolveDisabledCollectors (admin : Option Str) (l : List Collectors) :
    (resolveDisabledCollectors admin l).Sorted Collectors.le :=
  List.Pairwise.sublist (rustDedup_sublist _)
    (List.sorted_insertionSort Collectors.le (extendDisabled admin l))

theorem nodup_resolveDisabledCollectors (admin : Option Str) (l : List Collectors) :
    (resolveDisabledCollectors admin l).Nodup :=
  nodup_rustDedup _ (List.sorted_insertionSort Collectors.le (extendDisabled admin l))

theorem resolveDisabledCollectors_perm_invariant (admin : Option Str)
    (l1 l2 : List Collectors) (hperm : l1.Perm l2) :
    resolveDisabledCollectors admin l1 = resolveDisabledCollectors admin l2 := by
  have hp : (extendDisabled admin l1).Perm (extendDisabled admin l2) := by
    cases admin with
    | none => exact hperm.append_right adminCollectors
    | some s => exact hperm
  have hsorteq :
      List.insertionSort Collectors.le (extendDisabled admin l1)
        = List.insertionSort Collectors.le (extendDisabled admin l2) :=
    List.eq_of_perm_of_sorted
      (((List.perm_insertionSort Collectors.le _).trans hp).trans
        (List.perm_insertionSort Collectors.le _).symm)
      (List.sorted_insertionSort Collectors.le _)
      (List.sorted_insertionSort Collectors.le _)
  unfold resolveDisabledCollectors
  rw [hsorteq]

/-! ## Claim theorems -/

/-- Claim C1: for every common-labels token, keyValueParser returns Ok
exactly when the token contains exactly one `=` (splits on `=` into
exactly two parts), and returns Err otherwise; the input
env=prod,team=data parses to the map with env mapped to prod and team
mapped to data, while the tokens env (no `=`) and a=1=2 (more than one
`=`) are rejected. -/
theorem C1_keyValueParser_ok_iff_single_eq :
    (∀ t : Str, (keyValueParser t).isOk = true ↔ t.count '=' = 1)
    ∧ parseRef (some ("env=prod,team=data".toList))
        = some (Except.ok [("env".toList, "prod".toList), ("team".toList, "data".toList)])
    ∧ (keyValueParser ("env".toList)).isOk = false
    ∧ (keyValueParser ("a=1=2".toList)).isOk = false :=
  ⟨keyValueParser_isOk_iff, by decide, by decide, by decide⟩

/-- Claim C2 (evaluation at the failing input): on the malformed token
env, MapValueParser parse_ref does not return a recoverable validation
error; the unwrap on the failing key_value_parser result panics, modelled
by the none result. -/
theorem C2_parse_ref_panics_on_malformed_token :
    parseRef (some ("env".toList)) = none := by decide

/-- Claim C3: with no admin credential, the startup resolution force-adds
all four admin-dependent collector kinds, so the effective disabled set
equals the deduplicated union of the explicit exclusions and the full
admin-dependent set; in particular the explicit exclusion consisting of
EventTriggers alone resolves to exactly the full four-element set. -/
theorem C3_no_admin_forces_all_admin_collectors :
    (∀ (excl : List Collectors) (k : Collectors),
        k ∈ resolveDisabledCollectors none excl ↔ (k ∈ excl ∨ k ∈ adminCollectors))
    ∧ resolveDisabledCollectors none [Collectors.EventTriggers] = adminCollectors := by
  constructor
  · intro excl k
    unfold resolveDisabledCollectors extendDisabled
    rw [mem_rustDedup, List.mem_insertionSort, List.mem_append]
  · decide

/-- Claim C4: for every input list of explicit exclusions, with or
without an admin credential, the resolved disabled-collector list is
sorted by the derived order and has no duplicates, and any permutation of
the same input exclusions resolves to the identical list. -/
theorem C4_resolved_sorted_nodup_perm_invariant
    (admin : Option Str) (l1 l2 : List Collectors) (hperm : l1.Perm l2) :
    (resolveDisabledCollectors admin l1).Sorted Collectors.le
    ∧ (resolveDisabledCollectors admin l1).Nodup
    ∧ resolveDisabledCollectors admin l1 = resolveDisabledCollectors admin l2 :=
  ⟨sorted_resolveDisabledCollectors admin l1,
   nodup_resolveDisabledCollectors admin l1,
   resolveDisabledCollectors_perm_invariant admin l1 l2 hperm⟩

/-- Witness for claim C4 at a concrete permutation of a concrete
exclusion list, with and without checking the hypothesis by evaluation. -/
theorem C4_witness :
    ([Collectors.EventTriggers, Collectors.CronTriggers].Perm
        [Collectors.CronTriggers, Collectors.EventTriggers])
    ∧ ((resolveDisabledCollectors (some ("secret".toList))
          [Collectors.EventTriggers, Collectors.CronTriggers]).Sorted Collectors.le
       ∧ (resolveDisabledCollectors (some ("secret".toList))
            [Collectors.EventTriggers, Collectors.CronTriggers]).Nodup
       ∧ resolveDisabledCollectors (some ("secret".toList))
            [Collectors.EventTriggers, Collectors.CronTriggers]
          = resolveDisabledCollectors (some ("secret".toList))
              [Collectors.CronTriggers, Collectors.EventTriggers]) :=
  ⟨by decide,
   C4_resolved_sorted_nodup_perm_invariant (some ("secret".toList))
     [Collectors.EventTriggers, Collectors.CronTriggers]
     [Collectors.CronTriggers, Collectors.EventTriggers] (by decide)⟩

/-- Claim C5 counterexample: a fatal task error reaching the Err branch
of the try_join match leaves the cancellation signal unflipped; starting
from the running state, after the fatal-error transition the signal is
not terminating, refuting the claim at this concrete input. -/
theorem C5_counterexample_signal_not_flipped :
    (mainOnFatal { sig := SignalState.running, outcome := none }
        ("webserver bind failed".toList)).sig ≠ SignalState.terminating := by
  decide

/-- Claim C5 as amended: whenever a task returns a fatal error, main
records that error as its outcome and returns it, but the cancellation
signal is left exactly as it was (it is flipped only by the interrupt
handler); sibling tasks are dropped by try_join rather than observing a
flipped signal. -/
theorem C5_amended_fatal_error_leaves_signal_unchanged (s : MainRun) (e : Str) :
    (mainOnFatal s e).sig = s.sig
    ∧ (mainOnFatal s e).outcome = some (Except.error e) :=
  ⟨rfl, rfl⟩

/-- Claim C6: the cancellation signal starts running; the interrupt
trigger flips it to terminating, a second trigger is a no-op on the
resulting state, once terminating no operation brings it back to running,
and consumers (observers) never change it. -/
theorem C6_signal_monotone_idempotent :
    signalInit = SignalState.running
    ∧ (∀ s, applySignalOp s SignalOp.trigger = SignalState.terminating)
    ∧ (∀ s, applySignalOp (applySignalOp s SignalOp.trigger) SignalOp.trigger
          = applySignalOp s SignalOp.trigger)
    ∧ (∀ op, applySignalOp SignalState.terminating op = SignalState.terminating)
    ∧ (∀ s, applySignalOp s SignalOp.observe = s) := by
  refine ⟨rfl, fun s => rfl, fun s => rfl, fun op => ?_, fun s => rfl⟩
  cases op <;> rfl

/-- Claim C7: the process exits with code 0 on graceful shutdown, when
all three joined tasks return Ok, and exits nonzero when the exposition
endpoint fails to bind, the bind error propagating out of main as an Err
result. -/
theorem C7_exit_codes :
    exitCode (mainResult (Except.ok ()) (Except.ok ()) (Except.ok ())) = 0
    ∧ (∀ (e : Str) (runRes logRes collRes : Except Str Unit),
        webserverRun (Except.error e) runRes = Except.error e
        ∧ exitCode (mainResult (webserverRun (Except.error e) runRes) logRes collRes) ≠ 0) := by
  refine ⟨rfl, fun e runRes logRes collRes => ⟨rfl, ?_⟩⟩
  simp [mainResult, tryJoin3, webserverRun, exitCode, Bind.bind, Except.bind]

/-- Claim C8: the Err branch of parse_ref is unreachable: whenever
parse_ref returns at all (some result) it returns Ok, never a returned
error; the panics cover every failure, including the empty string input,
whose single empty token has no `=`, and the non-UTF-8 argument. -/
theorem C8_err_branch_unreachable :
    (∀ v : Option Str, parseRef v = none ∨ ∃ m, parseRef v = some (Except.ok m))
    ∧ (∀ (v : Option Str) (e : Str), parseRef v ≠ some (Except.error e))
    ∧ parseRef (some []) = none
    ∧ parseRef none = none := by
  have h1 : ∀ v : Option Str, parseRef v = none ∨ ∃ m, parseRef v = some (Except.ok m) := by
    intro v
    cases v with
    | none => exact Or.inl rfl
    | some s =>
      rcases h : mapUnwrap (splitOnChar ',' s) with _ | pairs
      · exact Or.inl (by simp [parseRef, h])
      · exact Or.inr ⟨collectMap pairs, by simp [parseRef, h]⟩
  refine ⟨h1, ?_, by decide, rfl⟩
  intro v e hv
  rcases h1 v with h | ⟨m, h⟩ <;> rw [h] at hv <;> simp at hv

/-- Claim C9: with the same key in more than one token, the later token
wins: a=1,a=2 produces the map with the single entry a mapped to 2, and
looking up a yields 2. -/
theorem C9_last_occurrence_wins :
    parseRef (some ("a=1,a=2".toList)) = some (Except.ok [("a".toList, "2".toList)])
    ∧ mapLookup [("a".toList, "2".toList)] ("a".toList) = some ("2".toList) := by
  exact ⟨by decide, by decide⟩

/-- Claim C10: with no common-labels option supplied, the telemetry
registry is constructed (construction always yields a value) with the
empty common-label map and the configured buckets, and every metric label
set then consists of the extra labels alone. -/
theorem C10_no_common_labels_defaults_empty :
    ∀ (buckets : List Float) (extra : List (Str × Str)),
      (mkMetricObj none buckets).common_labels = []
      ∧ (mkMetricObj none buckets).histogram_buckets = buckets
      ∧ (mkMetricObj none buckets).metricLabels extra = collectMap extra :=
  fun _buckets _extra => ⟨rfl, rfl, rfl⟩

end HasuraMetrics
